import Mathlib

/-!
Verification of the mistake-detection and constraint-learning core of the
Self-Improving Travel Planning Agent repository.

The definitions below are a shallow embedding of `memory.py` (trace model,
memory store, pattern aggregation, constraint learning) and `evaluator.py`
(mistake detection over a raw message log).  Python strings are Lean
`String`s; Python lists are Lean `List`s; the insertion-ordered
`defaultdict(int)` of pattern counts is an association list updated in
place and extended at the end; wall-clock timestamps
(`datetime.now().isoformat()`) are threaded as explicit `String`
parameters.  String helpers that the Python standard library provides
(`in`, `str.lower`, `str.split(sep, 1)`) are embedded as structurally
recursive functions over the character list of the string so that every
definition evaluates inside the kernel.
-/

/-! ## Mistake taxonomy (`memory.py`, class MistakeType) -/

def MistakeType.MISSING_REQUIRED_TOOL : String := "missing_required_tool"

def MistakeType.WRONG_TOOL : String := "wrong_tool"

def MistakeType.WRONG_SEQUENCE : String := "wrong_sequence"

def MistakeType.TOO_EARLY_ANSWER : String := "too_early_answer"

def MistakeType.IGNORED_TOOL_OUTPUT : String := "ignored_tool_output"

/-! ## Trace model (`memory.py`, class ExecutionTrace) -/

/-- One recorded tool call (the dict appended by `ExecutionTrace.add_tool_call`). -/
structure ToolCall where
  tool : String
  arguments : List (String × String)
  output : String
  order : Nat
deriving DecidableEq

/-- One detected mistake (the dict appended by `ExecutionTrace.add_mistake`).
`timestamp` is the `datetime.now().isoformat()` value at detection time,
supplied explicitly. -/
structure Mistake where
  type : String
  description : String
  step : Option Nat
  timestamp : String
deriving DecidableEq

/-- The record of one agent run (`ExecutionTrace.__init__` plus the fields
mutated later). -/
structure ExecutionTrace where
  run_id : Nat
  task : String
  timestamp : String
  tool_calls : List ToolCall
  final_answer : String
  success : Bool
  mistakes : List Mistake
deriving DecidableEq

/-- `ExecutionTrace.add_tool_call`: append a call numbered `len + 1`. -/
def addToolCall (t : ExecutionTrace) (tool_name : String)
    (arguments : List (String × String)) (output : String) : ExecutionTrace :=
  { t with tool_calls := t.tool_calls ++
      [{ tool := tool_name, arguments := arguments, output := output,
         order := t.tool_calls.length + 1 }] }

/-- `ExecutionTrace.set_final_answer`. -/
def setFinalAnswer (t : ExecutionTrace) (answer : String) : ExecutionTrace :=
  { t with final_answer := answer }

/-- `ExecutionTrace.add_mistake` with the wall-clock timestamp passed in as
`now`. -/
def addMistake (now : String) (t : ExecutionTrace) (mistake_type : String)
    (description : String) (step : Option Nat) : ExecutionTrace :=
  { t with mistakes := t.mistakes ++
      [{ type := mistake_type, description := description, step := step,
         timestamp := now }] }

/-! ## Raw message log (the langchain message list seen by the evaluator) -/

/-- One tool invocation carried by an assistant message
(`tool_call["name"]`, `tool_call["args"]`, `tool_call["id"]`). -/
structure ToolInvocation where
  name : String
  args : List (String × String)
  id : String
deriving DecidableEq

/-- A raw message: an `AIMessage` (content plus a possibly empty list of tool
invocations), a `ToolMessage` (correlation id plus content), or any other
message kind, which the evaluator ignores. -/
inductive Message where
  | ai (content : String) (tool_calls : List ToolInvocation)
  | tool (tool_call_id : String) (content : String)
  | other (content : String)
deriving DecidableEq

/-! ## String helpers embedding the Python built-ins used by the source -/

/-- Split a character list at the first `':'`, if any (Python
`s.split(":", 1)` succeeds exactly when this returns `some`). -/
def breakAtColon : List Char → Option (List Char × List Char)
  | [] => none
  | c :: cs =>
    if c = ':' then some ([], cs)
    else (breakAtColon cs).map (fun p => (c :: p.1, p.2))

/-- Python `pattern_key.split(":", 1)` unpacked into the pair
`(mistake_type, description)`.  Keys built by `save_trace` always contain a
colon; on a colon-free string (where Python would raise `ValueError`) the
whole string is returned as the first component. -/
def splitFirstColon (s : String) : String × String :=
  match breakAtColon s.data with
  | some p => (String.mk p.1, String.mk p.2)
  | none => (s, "")

/-- Python `s.lower()` (ASCII-level, via `Char.toLower`). -/
def toLowerStr (s : String) : String :=
  String.mk (s.data.map Char.toLower)

/-- `needle` is a prefix of `hay` (character lists). -/
def isPrefixChars : List Char → List Char → Bool
  | [], _ => true
  | _ :: _, [] => false
  | a :: as, b :: bs => a = b && isPrefixChars as bs

/-- `needle` occurs contiguously inside `hay` (character lists). -/
def isInfixChars (needle : List Char) : List Char → Bool
  | [] => needle.isEmpty
  | c :: rest => isPrefixChars needle (c :: rest) || isInfixChars needle rest

/-- Python `needle in hay` on strings (substring test). -/
def containsSub (hay needle : String) : Bool :=
  isInfixChars needle.data hay.data

/-! ## Evaluator (`evaluator.py`, class ExecutionEvaluator) -/

/-- `ExecutionEvaluator.REQUIRED_TOOLS`. -/
def REQUIRED_TOOLS : List String := ["check_weather"]

/-- The inner loop of `_extract_tool_calls` that finds the output of one
invocation: scan the whole message list for the first `ToolMessage` whose
`tool_call_id` matches; absent means `""`. -/
def findOutput (messages : List Message) (callId : String) : String :=
  match messages with
  | [] => ""
  | Message.tool tid content :: rest =>
    if tid == callId then content else findOutput rest callId
  | _ :: rest => findOutput rest callId

/-- The body of `_extract_tool_calls`'s outer loop for one message:
an assistant message first contributes one recorded ToolCall per carried
invocation, then (when it has textual content and no invocations) becomes
the final answer; every other message kind is skipped. -/
def extractStep (messages : List Message) (tr : ExecutionTrace) (msg : Message) :
    ExecutionTrace :=
  match msg with
  | Message.ai content tcs =>
    let tr1 := tcs.foldl
      (fun acc tc => addToolCall acc tc.name tc.args (findOutput messages tc.id)) tr
    if content != "" && tcs.isEmpty then setFinalAnswer tr1 content else tr1
  | _ => tr

/-- `ExecutionEvaluator._extract_tool_calls`. -/
def extractToolCalls (messages : List Message) (t : ExecutionTrace) : ExecutionTrace :=
  messages.foldl (extractStep messages) t

/-- `ExecutionEvaluator._check_missing_required_tools`. -/
def checkMissingRequiredTools (now : String) (t : ExecutionTrace) : ExecutionTrace :=
  let tools_used := t.tool_calls.map (fun c => c.tool)
  REQUIRED_TOOLS.foldl
    (fun tr required_tool =>
      if tools_used.contains required_tool then tr
      else addMistake now tr MistakeType.MISSING_REQUIRED_TOOL
        ("Required tool \x27" ++ required_tool ++ "\x27 was not used") none)
    t

/-- `ExecutionEvaluator._check_tool_sequence`: three independent sub-checks
over the ordered tool-name list. -/
def checkToolSequence (now : String) (t : ExecutionTrace) : ExecutionTrace :=
  if t.tool_calls.length < 2 then t
  else
    let tools_used := t.tool_calls.map (fun c => c.tool)
    let t1 :=
      if tools_used.contains "recommend_hotels" && tools_used.contains "search_flights" then
        let hotel_idx := tools_used.indexOf "recommend_hotels"
        let flight_idx := tools_used.indexOf "search_flights"
        if hotel_idx < flight_idx then
          addMistake now t MistakeType.WRONG_SEQUENCE
            "Hotels were recommended before searching for flights" (some (hotel_idx + 1))
        else t
      else t
    let t2 :=
      if tools_used.contains "create_itinerary" then
        let itinerary_idx := tools_used.indexOf "create_itinerary"
        if itinerary_idx < tools_used.length - 1 then
          addMistake now t1 MistakeType.WRONG_SEQUENCE
            "Itinerary was created before completing other planning steps"
            (some (itinerary_idx + 1))
        else t1
      else t1
    if tools_used.contains "check_weather" then
      let weather_idx := tools_used.indexOf "check_weather"
      if weather_idx > 0 then
        addMistake now t2 MistakeType.WRONG_SEQUENCE
          "Weather should be checked before other tools" (some (weather_idx + 1))
      else t2
    else t2

/-- `ExecutionEvaluator._check_early_termination`. -/
def checkEarlyTermination (now : String) (t : ExecutionTrace) : ExecutionTrace :=
  if t.final_answer != "" && t.tool_calls.length < 2 then
    addMistake now t MistakeType.TOO_EARLY_ANSWER
      ("Agent provided final answer after only " ++ toString t.tool_calls.length
        ++ " tool calls")
      (some t.tool_calls.length)
  else t

/-- The fixed refusal/incapacity phrase list of `_check_tool_output_usage`. -/
def GENERIC_PHRASES : List String :=
  ["i cannot", "i don\x27t have access", "i\x27m unable to", "i can\x27t help"]

/-- `ExecutionEvaluator._check_tool_output_usage` (only reads the trace;
the message list is passed through for signature fidelity). -/
def checkToolOutputUsage (now : String) (t : ExecutionTrace)
    (_messages : List Message) : ExecutionTrace :=
  if t.final_answer == "" then t
  else
    let final_answer_lower := toLowerStr t.final_answer
    if t.tool_calls.length > 0
        && GENERIC_PHRASES.any (fun phrase => containsSub final_answer_lower phrase) then
      addMistake now t MistakeType.IGNORED_TOOL_OUTPUT
        "Agent ignored tool outputs and provided generic response"
        (some (t.tool_calls.length + 1))
    else t

/-- `ExecutionEvaluator.evaluate`: extraction, the four checks, then
`success = (len(mistakes) == 0)`. -/
def evaluate (now : String) (trace : ExecutionTrace) (messages : List Message) :
    ExecutionTrace :=
  let t1 := extractToolCalls messages trace
  let t2 := checkMissingRequiredTools now t1
  let t3 := checkToolSequence now t2
  let t4 := checkEarlyTermination now t3
  let t5 := checkToolOutputUsage now t4 messages
  { t5 with success := t5.mistakes.isEmpty }

/-! ## Memory store (`memory.py`, class MemoryStore) -/

/-- One learned constraint record (the dict appended by
`_learn_from_patterns`). -/
structure ConstraintEntry where
  pattern_key : String
  constraint : String
  occurrences : Nat
  created_at : String
deriving DecidableEq

/-- The in-memory state of a `MemoryStore`.  `mistake_patterns` is an
insertion-ordered association list mirroring the Python
`defaultdict(int)`. -/
structure MemoryStore where
  execution_history : List ExecutionTrace
  learned_constraints : List ConstraintEntry
  mistake_patterns : List (String × Nat)
  run_counter : Nat
deriving DecidableEq

/-- The state of `MemoryStore.__init__` when no durable document exists. -/
def initialStore : MemoryStore :=
  { execution_history := [], learned_constraints := [], mistake_patterns := [],
    run_counter := 0 }

/-- `self.mistake_patterns[pattern_key] += 1` on the ordered association
list: increment in place when present, append `(key, 1)` otherwise. -/
def bumpPattern : List (String × Nat) → String → List (String × Nat)
  | [], key => [(key, 1)]
  | (k, v) :: rest, key =>
    if k == key then (k, v + 1) :: rest else (k, v) :: bumpPattern rest key

/-- `MemoryStore.create_trace`: increment `run_counter`, return the fresh
empty trace stamped with the new id and the current time. -/
def createTrace (s : MemoryStore) (task : String) (now : String) :
    ExecutionTrace × MemoryStore :=
  let s1 := { s with run_counter := s.run_counter + 1 }
  ({ run_id := s1.run_counter, task := task, timestamp := now, tool_calls := [],
     final_answer := "", success := false, mistakes := [] }, s1)

/-- `MemoryStore._create_constraint`: the per-mistake-kind template table,
suffixed with the occurrence count; unknown kinds yield `None`. -/
def createConstraint (mistake_type description : String) (count : Nat) :
    Option String :=
  let base : Option String :=
    if mistake_type == MistakeType.MISSING_REQUIRED_TOOL then
      some ("ALWAYS use the required tool mentioned: " ++ description)
    else if mistake_type == MistakeType.WRONG_SEQUENCE then
      some ("Follow the correct tool sequence: " ++ description)
    else if mistake_type == MistakeType.TOO_EARLY_ANSWER then
      some "Do NOT provide a final answer until ALL necessary tools have been called"
    else if mistake_type == MistakeType.IGNORED_TOOL_OUTPUT then
      some ("MUST incorporate tool outputs into your answer: " ++ description)
    else if mistake_type == MistakeType.WRONG_TOOL then
      some ("Use the correct tool: " ++ description)
    else none
  base.map (fun b => b ++ " (learned from " ++ toString count ++ " past mistakes)")

/-- The body of `_learn_from_patterns` for one `(pattern_key, count)` item:
at count ≥ 2, and only when no constraint with that key exists yet,
synthesize and append a new constraint frozen at the current count. -/
def learnStep (now : String) (st : MemoryStore) (kv : String × Nat) : MemoryStore :=
  if kv.2 ≥ 2 then
    let td := splitFirstColon kv.1
    let existing := st.learned_constraints.any (fun c => c.pattern_key == kv.1)
    if existing then st
    else
      match createConstraint td.1 td.2 kv.2 with
      | some c =>
        { st with learned_constraints := st.learned_constraints ++
            [{ pattern_key := kv.1, constraint := c, occurrences := kv.2,
               created_at := now }] }
      | none => st
  else st

/-- `MemoryStore._learn_from_patterns`: scan the pattern map in insertion
order (the loop never modifies the map itself). -/
def learnFromPatterns (now : String) (s : MemoryStore) : MemoryStore :=
  s.mistake_patterns.foldl (learnStep now) s

/-- `MemoryStore.save_trace`: append to history, bump the pattern count of
every mistake of the trace, then run the learning pass.  (`_save`, the
durable flush, is modelled separately by `saveDoc` since it does not change
the in-memory state.) -/
def saveTrace (now : String) (s : MemoryStore) (trace : ExecutionTrace) :
    MemoryStore :=
  let s1 := { s with execution_history := s.execution_history ++ [trace] }
  let s2 := { s1 with mistake_patterns :=
      (trace.mistakes.foldl
        (fun ps m => bumpPattern ps (m.type ++ ":" ++ m.description))
        s1.mistake_patterns) }
  learnFromPatterns now s2

/-- `MemoryStore.get_active_constraints`. -/
def getActiveConstraints (s : MemoryStore) : List String :=
  s.learned_constraints.map (fun c => c.constraint)

/-! ## Durable document (`_save` / `_load`) -/

/-- The single durable document written by `MemoryStore._save`
(`trace.to_dict()` is field-for-field identical to the trace record, so the
history entries are kept as `ExecutionTrace` values). -/
structure MemoryDoc where
  run_counter : Nat
  learned_constraints : List ConstraintEntry
  mistake_patterns : List (String × Nat)
  execution_history : List ExecutionTrace
deriving DecidableEq

/-- `MemoryStore._save`: serialize the state, truncating the history to the
most recent 50 traces (`execution_history[-50:]`). -/
def saveDoc (s : MemoryStore) : MemoryDoc :=
  { run_counter := s.run_counter,
    learned_constraints := s.learned_constraints,
    mistake_patterns := s.mistake_patterns,
    execution_history :=
      s.execution_history.drop (s.execution_history.length - 50) }

/-- A fresh `MemoryStore.__init__` whose `_load` finds the given document:
the stored fields are taken verbatim and the history is again limited to
the last 50 records (`history_data[-50:]`). -/
def loadStore (doc : MemoryDoc) : MemoryStore :=
  { run_counter := doc.run_counter,
    learned_constraints := doc.learned_constraints,
    mistake_patterns := doc.mistake_patterns,
    execution_history :=
      doc.execution_history.drop (doc.execution_history.length - 50) }

/-! ## Statistics (`MemoryStore.get_statistics`) -/

/-- The summary returned by `get_statistics`.  `improvement_rate` is kept as
the exact rational value of the Python float expression
`(previous - recent) / max(previous, 1) * 100`; the source additionally
rounds it to two decimal places for display. -/
structure Stats where
  total_runs : Nat
  successful_runs : Nat
  total_mistakes : Nat
  learned_constraints : Nat
  improvement_rate : Rat
  mistake_patterns : List (String × Nat)
deriving DecidableEq

/-- `MemoryStore.get_statistics`. -/
def getStatistics (s : MemoryStore) : Stats :=
  let total_runs := s.execution_history.length
  let successful_runs := (s.execution_history.filter (fun t => t.success)).length
  let total_mistakes := (s.execution_history.map (fun t => t.mistakes.length)).sum
  let improvement : Rat :=
    if total_runs ≥ 10 then
      let recent_mistakes : Nat :=
        ((s.execution_history.drop (total_runs - 5)).map
          (fun t => t.mistakes.length)).sum
      let previous_mistakes : Nat :=
        (((s.execution_history.drop (total_runs - 10)).take 5).map
          (fun t => t.mistakes.length)).sum
      ((previous_mistakes : Rat) - (recent_mistakes : Rat))
        / ((max previous_mistakes 1 : Nat) : Rat) * 100
    else 0
  { total_runs := total_runs,
    successful_runs := successful_runs,
    total_mistakes := total_mistakes,
    learned_constraints := s.learned_constraints.length,
    improvement_rate := improvement,
    mistake_patterns := s.mistake_patterns }

/-! ## Characterization helpers

Closed-form descriptions of what each evaluator phase appends, proven equal
to the embedded source functions below.  They let the theorems speak about
the mistakes a phase produces as a list value. -/

/-- The mistakes appended by `checkMissingRequiredTools`. -/
def missingMistakes (now : String) (tool_calls : List ToolCall) : List Mistake :=
  if (tool_calls.map (fun c => c.tool)).contains "check_weather" then []
  else
    [{ type := MistakeType.MISSING_REQUIRED_TOOL,
       description := "Required tool \x27check_weather\x27 was not used",
       step := none, timestamp := now }]

/-- The mistakes appended by `checkToolSequence`, as a function of the
ordered tool-name list. -/
def seqMistakes (now : String) (tools_used : List String) : List Mistake :=
  if tools_used.length < 2 then []
  else
    let m1 : List Mistake :=
      if tools_used.contains "recommend_hotels" && tools_used.contains "search_flights" then
        let hotel_idx := tools_used.indexOf "recommend_hotels"
        let flight_idx := tools_used.indexOf "search_flights"
        if hotel_idx < flight_idx then
          [{ type := MistakeType.WRONG_SEQUENCE,
             description := "Hotels were recommended before searching for flights",
             step := some (hotel_idx + 1), timestamp := now }]
        else []
      else []
    let m2 : List Mistake :=
      if tools_used.contains "create_itinerary" then
        let itinerary_idx := tools_used.indexOf "create_itinerary"
        if itinerary_idx < tools_used.length - 1 then
          [{ type := MistakeType.WRONG_SEQUENCE,
             description := "Itinerary was created before completing other planning steps",
             step := some (itinerary_idx + 1), timestamp := now }]
        else []
      else []
    let m3 : List Mistake :=
      if tools_used.contains "check_weather" then
        let weather_idx := tools_used.indexOf "check_weather"
        if weather_idx > 0 then
          [{ type := MistakeType.WRONG_SEQUENCE,
             description := "Weather should be checked before other tools",
             step := some (weather_idx + 1), timestamp := now }]
        else []
      else []
    m1 ++ m2 ++ m3

/-- The mistakes appended by `checkEarlyTermination`. -/
def earlyMistakes (now : String) (final_answer : String) (num_calls : Nat) :
    List Mistake :=
  if final_answer != "" && num_calls < 2 then
    [{ type := MistakeType.TOO_EARLY_ANSWER,
       description := "Agent provided final answer after only "
         ++ toString num_calls ++ " tool calls",
       step := some num_calls, timestamp := now }]
  else []

/-- The mistakes appended by `checkToolOutputUsage`. -/
def outputMistakes (now : String) (final_answer : String) (num_calls : Nat) :
    List Mistake :=
  if final_answer == "" then []
  else if num_calls > 0
      && GENERIC_PHRASES.any (fun phrase => containsSub (toLowerStr final_answer) phrase) then
    [{ type := MistakeType.IGNORED_TOOL_OUTPUT,
       description := "Agent ignored tool outputs and provided generic response",
       step := some (num_calls + 1), timestamp := now }]
  else []

/-- The tool-call list built by folding `addToolCall` over the invocations
of one assistant message, starting from `cur`. -/
def extendCalls (messages : List Message) (cur : List ToolCall) :
    List ToolInvocation → List ToolCall
  | [] => cur
  | tc :: rest =>
    extendCalls messages
      (cur ++ [{ tool := tc.name, arguments := tc.args,
                 output := findOutput messages tc.id, order := cur.length + 1 }])
      rest

/-- The tool-call list accumulated by `extractToolCalls` while scanning the
remaining messages `ms` (outputs are looked up in the full log `messages`). -/
def extractCallsFrom (messages : List Message) (cur : List ToolCall) :
    List Message → List ToolCall
  | [] => cur
  | Message.ai _ tcs :: rest => extractCallsFrom messages (extendCalls messages cur tcs) rest
  | _ :: rest => extractCallsFrom messages cur rest

/-- The final answer accumulated by `extractToolCalls` while scanning the
remaining messages (last content-only assistant message wins). -/
def extractFinalFrom (cur : String) : List Message → String
  | [] => cur
  | Message.ai content tcs :: rest =>
    extractFinalFrom (if content != "" && tcs.isEmpty then content else cur) rest
  | _ :: rest => extractFinalFrom cur rest

/-- All tool invocations carried by assistant messages, in log order. -/
def allInvocations : List Message → List ToolInvocation
  | [] => []
  | Message.ai _ tcs :: rest => tcs ++ allInvocations rest
  | _ :: rest => allInvocations rest

/-- The contents of every tool-result message whose correlation id matches
`callId`, in log order. -/
def matchingOutputs (messages : List Message) (callId : String) : List String :=
  messages.filterMap (fun m =>
    match m with
    | Message.tool tid content => if tid == callId then some content else none
    | _ => none)

/-- Spec reading of the extraction output rule as the code realises it: the
content of the first matching tool-result *anywhere in the log*, or `""`. -/
def specFirstOutputAnywhere (messages : List Message) (callId : String) : String :=
  (matchingOutputs messages callId).headD ""

/-- Spec reading of the claim as written: the content of the first matching
tool-result occurring *after* position `i` of the log, or `""`. -/
def specFirstOutputAfter (messages : List Message) (i : Nat) (callId : String) : String :=
  specFirstOutputAnywhere (messages.drop (i + 1)) callId

/-- Spec reading of the statistics window: total mistakes of the most
recent 5 runs. -/
def recentFiveMistakes (s : MemoryStore) : Nat :=
  ((s.execution_history.reverse.take 5).map (fun t => t.mistakes.length)).sum

/-- Spec reading of the statistics window: total mistakes of the 5 runs
preceding the most recent 5. -/
def precedingFiveMistakes (s : MemoryStore) : Nat :=
  (((s.execution_history.reverse.drop 5).take 5).map (fun t => t.mistakes.length)).sum

/-! ## Store operation sequences (for the run-counter claim) -/

/-- A public mutating operation on the memory store. -/
inductive MemOp where
  | create (task now : String)
  | save (now : String) (trace : ExecutionTrace)

/-- Apply one operation to the store (dropping the trace that
`create_trace` returns). -/
def applyOp (s : MemoryStore) : MemOp → MemoryStore
  | MemOp.create task now => (createTrace s task now).2
  | MemOp.save now trace => saveTrace now s trace

/-- Whether an operation is a `create_trace` call. -/
def isCreateOp : MemOp → Bool
  | MemOp.create _ _ => true
  | MemOp.save _ _ => false

/-! ## Concrete inputs used by scenario theorems and counterexamples -/

/-- A fresh, never-evaluated trace (what `create_trace` returns). -/
def freshTrace : ExecutionTrace :=
  { run_id := 1, task := "Plan a trip", timestamp := "T0", tool_calls := [],
    final_answer := "", success := false, mistakes := [] }

/-- A raw log whose tool-name sequence is `[search_flights, create_itinerary]`:
first evaluation emits only the missing-weather mistake, re-evaluation of the
mutated trace additionally emits a wrong-sequence mistake. -/
def msgsTwoCalls : List Message :=
  [Message.ai "" [{ name := "search_flights", args := [], id := "id1" },
                  { name := "create_itinerary", args := [], id := "id2" }],
   Message.tool "id1" "flights found", Message.tool "id2" "itinerary made"]

/-- A raw log in which a matching tool-result appears *before* the assistant
message carrying the invocation (id `"x"`), and another one after it. -/
def msgsResultBefore : List Message :=
  [Message.tool "x" "early", Message.ai "" [{ name := "search_flights", args := [], id := "x" }],
   Message.tool "x" "late"]

/-- A trace whose tool-call name sequence is
`[search_flights, check_weather, recommend_hotels, create_itinerary]`. -/
def traceScenarioC : ExecutionTrace :=
  { run_id := 1, task := "Plan a trip", timestamp := "T0",
    tool_calls :=
      [{ tool := "search_flights", arguments := [], output := "o1", order := 1 },
       { tool := "check_weather", arguments := [], output := "o2", order := 2 },
       { tool := "recommend_hotels", arguments := [], output := "o3", order := 3 },
       { tool := "create_itinerary", arguments := [], output := "o4", order := 4 }],
    final_answer := "", success := false, mistakes := [] }

/-- The missing-weather mistake as recorded at time `"T0"`. -/
def weatherMistake : Mistake :=
  { type := "missing_required_tool",
    description := "Required tool \x27check_weather\x27 was not used",
    step := none, timestamp := "T0" }

/-- A trace carrying two occurrences of the missing-weather pattern. -/
def traceTwoOccurrences : ExecutionTrace :=
  { freshTrace with mistakes := [weatherMistake, weatherMistake] }

/-- A trace carrying three further occurrences of the same pattern
(pushing the cross-run count from 2 to 5). -/
def traceThreeOccurrences : ExecutionTrace :=
  { freshTrace with mistakes := [weatherMistake, weatherMistake, weatherMistake] }

/-- The pattern key of the missing-weather mistake. -/
def weatherPatternKey : String :=
  "missing_required_tool:Required tool \x27check_weather\x27 was not used"

/-- The frozen constraint entry the learning pass creates for the
missing-weather pattern at first threshold crossing. -/
def weatherConstraintEntry : ConstraintEntry :=
  { pattern_key := weatherPatternKey,
    constraint := "ALWAYS use the required tool mentioned: Required tool \x27check_weather\x27 was not used (learned from 2 past mistakes)",
    occurrences := 2, created_at := "T1" }

/-- A second fresh trace differing from `freshTrace` only in run metadata. -/
def freshTraceAlt : ExecutionTrace :=
  { run_id := 2, task := "Plan another trip", timestamp := "T9", tool_calls := [],
    final_answer := "", success := false, mistakes := [] }

/-! # Lemmas: characterizing the evaluator phases -/

/-- `checkMissingRequiredTools` appends exactly `missingMistakes`. -/
theorem checkMissing_eq (now : String) (t : ExecutionTrace) :
    checkMissingRequiredTools now t
      = { t with mistakes := t.mistakes ++ missingMistakes now t.tool_calls } := by
  simp only [checkMissingRequiredTools, REQUIRED_TOOLS, missingMistakes,
    List.foldl_cons, List.foldl_nil]
  split
  · simp
  · simp [addMistake]

/-- `checkToolSequence` appends exactly `seqMistakes` of the tool-name list. -/
theorem checkSeq_eq (now : String) (t : ExecutionTrace) :
    checkToolSequence now t
      = { t with mistakes :=
            t.mistakes ++ seqMistakes now (t.tool_calls.map (fun c => c.tool)) } := by
  simp only [checkToolSequence, seqMistakes, List.length_map]
  repeat' split
  all_goals simp_all [addMistake, List.append_assoc]

/-- `checkEarlyTermination` appends exactly `earlyMistakes`. -/
theorem checkEarly_eq (now : String) (t : ExecutionTrace) :
    checkEarlyTermination now t
      = { t with mistakes :=
            t.mistakes ++ earlyMistakes now t.final_answer t.tool_calls.length } := by
  simp only [checkEarlyTermination, earlyMistakes]
  split
  · simp [addMistake]
  · simp

/-- `checkToolOutputUsage` appends exactly `outputMistakes`. -/
theorem checkOutput_eq (now : String) (t : ExecutionTrace) (messages : List Message) :
    checkToolOutputUsage now t messages
      = { t with mistakes :=
            t.mistakes ++ outputMistakes now t.final_answer t.tool_calls.length } := by
  simp only [checkToolOutputUsage, outputMistakes]
  repeat' split
  all_goals simp [addMistake]

/-- Folding `addToolCall` over one assistant message's invocations is
`extendCalls` on the tool-call field. -/
theorem foldl_addToolCall_eq (messages : List Message) :
    ∀ (tcs : List ToolInvocation) (tr : ExecutionTrace),
      tcs.foldl (fun acc tc => addToolCall acc tc.name tc.args (findOutput messages tc.id)) tr
        = { tr with tool_calls := extendCalls messages tr.tool_calls tcs } := by
  intro tcs
  induction tcs with
  | nil => intro tr; rfl
  | cons tc rest ih =>
    intro tr
    rw [List.foldl_cons, ih]
    simp [addToolCall, extendCalls]

/-- The extraction scan characterized field by field: it fills the tool-call
list via `extractCallsFrom`, the final answer via `extractFinalFrom`, and
touches nothing else. -/
theorem extract_foldl_eq (messages : List Message) :
    ∀ (ms : List Message) (t : ExecutionTrace),
      ms.foldl (extractStep messages) t
        = { t with tool_calls := extractCallsFrom messages t.tool_calls ms,
                   final_answer := extractFinalFrom t.final_answer ms } := by
  intro ms
  induction ms with
  | nil => intro t; rfl
  | cons m rest ih =>
    intro t
    rw [List.foldl_cons]
    cases m with
    | ai content tcs =>
      simp only [extractStep, foldl_addToolCall_eq, extractCallsFrom, extractFinalFrom]
      split
      · rw [ih]
        rename_i h
        simp [setFinalAnswer, h]
      · rw [ih]
    | tool tid content =>
      simp only [extractStep, extractCallsFrom, extractFinalFrom]
      exact ih t
    | other content =>
      simp only [extractStep, extractCallsFrom, extractFinalFrom]
      exact ih t

/-- `extractToolCalls` characterized. -/
theorem extractToolCalls_eq (messages : List Message) (t : ExecutionTrace) :
    extractToolCalls messages t
      = { t with tool_calls := extractCallsFrom messages t.tool_calls messages,
                 final_answer := extractFinalFrom t.final_answer messages } :=
  extract_foldl_eq messages messages t

/-- `evaluate` characterized: the extracted fields plus the four appended
mistake batches, with `success` derived from the final mistake list. -/
theorem evaluate_eq (now : String) (trace : ExecutionTrace) (messages : List Message) :
    evaluate now trace messages =
      { run_id := trace.run_id, task := trace.task, timestamp := trace.timestamp,
        tool_calls := extractCallsFrom messages trace.tool_calls messages,
        final_answer := extractFinalFrom trace.final_answer messages,
        success := (trace.mistakes
          ++ missingMistakes now (extractCallsFrom messages trace.tool_calls messages)
          ++ seqMistakes now
              ((extractCallsFrom messages trace.tool_calls messages).map (fun c => c.tool))
          ++ earlyMistakes now (extractFinalFrom trace.final_answer messages)
              (extractCallsFrom messages trace.tool_calls messages).length
          ++ outputMistakes now (extractFinalFrom trace.final_answer messages)
              (extractCallsFrom messages trace.tool_calls messages).length).isEmpty,
        mistakes := trace.mistakes
          ++ missingMistakes now (extractCallsFrom messages trace.tool_calls messages)
          ++ seqMistakes now
              ((extractCallsFrom messages trace.tool_calls messages).map (fun c => c.tool))
          ++ earlyMistakes now (extractFinalFrom trace.final_answer messages)
              (extractCallsFrom messages trace.tool_calls messages).length
          ++ outputMistakes now (extractFinalFrom trace.final_answer messages)
              (extractCallsFrom messages trace.tool_calls messages).length } := by
  simp only [evaluate, extractToolCalls_eq, checkMissing_eq, checkSeq_eq, checkEarly_eq,
    checkOutput_eq, List.append_assoc]

/-- The mistake list after `evaluate`: the prior mistakes followed by the
four batches. -/
theorem evaluate_mistakes (now : String) (trace : ExecutionTrace) (messages : List Message) :
    (evaluate now trace messages).mistakes =
      trace.mistakes
        ++ missingMistakes now (extractCallsFrom messages trace.tool_calls messages)
        ++ seqMistakes now
            ((extractCallsFrom messages trace.tool_calls messages).map (fun c => c.tool))
        ++ earlyMistakes now (extractFinalFrom trace.final_answer messages)
            (extractCallsFrom messages trace.tool_calls messages).length
        ++ outputMistakes now (extractFinalFrom trace.final_answer messages)
            (extractCallsFrom messages trace.tool_calls messages).length := by
  rw [evaluate_eq]

/-! # Lemmas: tool-call outputs -/

/-- The scan of `findOutput` returns the head of the matching-output list:
the first matching tool-result anywhere in the log, or `""`. -/
theorem findOutput_eq_spec (messages : List Message) (callId : String) :
    findOutput messages callId = specFirstOutputAnywhere messages callId := by
  induction messages with
  | nil => rfl
  | cons m rest ih =>
    cases m with
    | ai content tcs =>
      simpa [findOutput, specFirstOutputAnywhere, matchingOutputs] using ih
    | tool tid content =>
      simp only [findOutput, specFirstOutputAnywhere, matchingOutputs, List.filterMap_cons]
      split
      · rename_i h
        simp [h]
      · rename_i h
        simpa [h, specFirstOutputAnywhere, matchingOutputs] using ih
    | other content =>
      simpa [findOutput, specFirstOutputAnywhere, matchingOutputs] using ih

/-- Outputs recorded for one assistant message's invocations. -/
theorem extendCalls_outputs (messages : List Message) :
    ∀ (tcs : List ToolInvocation) (cur : List ToolCall),
      (extendCalls messages cur tcs).map (fun c => c.output)
        = cur.map (fun c => c.output) ++ tcs.map (fun tc => findOutput messages tc.id) := by
  intro tcs
  induction tcs with
  | nil => intro cur; simp [extendCalls]
  | cons tc rest ih =>
    intro cur
    simp [extendCalls, ih, List.append_assoc]

/-- Outputs recorded over a whole message scan. -/
theorem extractCallsFrom_outputs (messages : List Message) :
    ∀ (ms : List Message) (cur : List ToolCall),
      (extractCallsFrom messages cur ms).map (fun c => c.output)
        = cur.map (fun c => c.output)
          ++ (allInvocations ms).map (fun tc => findOutput messages tc.id) := by
  intro ms
  induction ms with
  | nil => intro cur; simp [extractCallsFrom, allInvocations]
  | cons m rest ih =>
    intro cur
    cases m with
    | ai content tcs =>
      simp [extractCallsFrom, allInvocations, ih, extendCalls_outputs, List.append_assoc]
    | tool tid content =>
      simp [extractCallsFrom, allInvocations, ih]
    | other content =>
      simp [extractCallsFrom, allInvocations, ih]

/-! # Lemmas: mistake kinds produced by each phase -/

/-- Every mistake of `missingMistakes` is a MissingRequiredTool. -/
theorem missingMistakes_type (now : String) (tool_calls : List ToolCall) :
    ∀ m ∈ missingMistakes now tool_calls, m.type = MistakeType.MISSING_REQUIRED_TOOL := by
  intro m hm
  unfold missingMistakes at hm
  split at hm
  · simp at hm
  · simp at hm
    rw [hm]

/-- Every mistake of `seqMistakes` is a WrongSequence. -/
theorem seqMistakes_type (now : String) (tools_used : List String) :
    ∀ m ∈ seqMistakes now tools_used, m.type = MistakeType.WRONG_SEQUENCE := by
  intro m hm
  unfold seqMistakes at hm
  split at hm
  · simp at hm
  · simp only [List.mem_append] at hm
    rcases hm with (hm | hm) | hm <;>
      (split at hm <;> try split at hm) <;> simp_all

/-- Every mistake of `earlyMistakes` is a TooEarlyAnswer. -/
theorem earlyMistakes_type (now : String) (final_answer : String) (num_calls : Nat) :
    ∀ m ∈ earlyMistakes now final_answer num_calls,
      m.type = MistakeType.TOO_EARLY_ANSWER := by
  intro m hm
  unfold earlyMistakes at hm
  split at hm <;> simp_all

/-- Every mistake of `outputMistakes` is an IgnoredToolOutput. -/
theorem outputMistakes_type (now : String) (final_answer : String) (num_calls : Nat) :
    ∀ m ∈ outputMistakes now final_answer num_calls,
      m.type = MistakeType.IGNORED_TOOL_OUTPUT := by
  intro m hm
  unfold outputMistakes at hm
  split at hm <;> try split at hm
  all_goals simp_all

/-! # Lemmas: memory store -/

/-- One learning step never touches the run counter. -/
theorem learnStep_run_counter (now : String) (st : MemoryStore) (kv : String × Nat) :
    (learnStep now st kv).run_counter = st.run_counter := by
  simp only [learnStep]
  repeat' split
  all_goals rfl

/-- The learning pass never touches the run counter. -/
theorem learnFromPatterns_run_counter (now : String) (s : MemoryStore) :
    (learnFromPatterns now s).run_counter = s.run_counter := by
  unfold learnFromPatterns
  generalize s.mistake_patterns = ps
  induction ps generalizing s with
  | nil => rfl
  | cons kv rest ih =>
    rw [List.foldl_cons]
    rw [ih (learnStep now s kv), learnStep_run_counter]

/-- `save_trace` never touches the run counter. -/
theorem saveTrace_run_counter (now : String) (s : MemoryStore) (t : ExecutionTrace) :
    (saveTrace now s t).run_counter = s.run_counter := by
  unfold saveTrace
  rw [learnFromPatterns_run_counter]

/-- One learning step only ever appends to the constraint list. -/
theorem learnStep_constraints_grow (now : String) (st : MemoryStore) (kv : String × Nat) :
    st.learned_constraints <+: (learnStep now st kv).learned_constraints := by
  simp only [learnStep]
  repeat' split
  all_goals first
    | exact List.prefix_rfl
    | exact List.prefix_append _ _

/-- The learning pass only ever appends to the constraint list. -/
theorem learnFromPatterns_constraints_grow (now : String) (s : MemoryStore) :
    s.learned_constraints <+: (learnFromPatterns now s).learned_constraints := by
  unfold learnFromPatterns
  generalize s.mistake_patterns = ps
  induction ps generalizing s with
  | nil => exact List.prefix_rfl
  | cons kv rest ih =>
    rw [List.foldl_cons]
    exact (learnStep_constraints_grow now s kv).trans (ih (learnStep now s kv))

/-- `save_trace` only ever appends to the constraint list: existing
constraint entries survive every later save unchanged, occurrence count
included. -/
theorem saveTrace_constraints_grow (now : String) (s : MemoryStore) (t : ExecutionTrace) :
    s.learned_constraints <+: (saveTrace now s t).learned_constraints := by
  simp only [saveTrace]
  exact learnFromPatterns_constraints_grow now
    { s with execution_history := s.execution_history ++ [t],
             mistake_patterns :=
               (t.mistakes.foldl
                 (fun ps m => bumpPattern ps (m.type ++ ":" ++ m.description))
                 s.mistake_patterns) }

/-- One learning step preserves distinctness of the stored pattern keys:
a new entry is appended only after the duplicate check fails. -/
theorem learnStep_keys_nodup (now : String) (st : MemoryStore) (kv : String × Nat)
    (h : (st.learned_constraints.map (fun c => c.pattern_key)).Nodup) :
    ((learnStep now st kv).learned_constraints.map (fun c => c.pattern_key)).Nodup := by
  simp only [learnStep]
  split
  · split
    · exact h
    · rename_i hexisting
      split
      · rename_i c hc
        simp only [List.map_append, List.map_cons, List.map_nil]
        rw [List.nodup_append]
        refine ⟨h, List.nodup_singleton _, ?_⟩
        intro a ha hb
        simp only [List.mem_singleton] at hb
        subst hb
        simp only [List.mem_map] at ha
        obtain ⟨ce, hce, hkey⟩ := ha
        have hany : (st.learned_constraints.any (fun c => c.pattern_key == kv.1)) = true :=
          List.any_eq_true.mpr ⟨ce, hce, by simp [hkey]⟩
        exact absurd hany hexisting
      · exact h
  · exact h

/-- The learning pass preserves distinctness of the stored pattern keys. -/
theorem learnFromPatterns_keys_nodup (now : String) (s : MemoryStore)
    (h : (s.learned_constraints.map (fun c => c.pattern_key)).Nodup) :
    ((learnFromPatterns now s).learned_constraints.map (fun c => c.pattern_key)).Nodup := by
  unfold learnFromPatterns
  generalize s.mistake_patterns = ps
  induction ps generalizing s with
  | nil => exact h
  | cons kv rest ih =>
    rw [List.foldl_cons]
    exact ih (learnStep now s kv) (learnStep_keys_nodup now s kv h)

/-- `save_trace` preserves distinctness of the stored pattern keys. -/
theorem saveTrace_keys_nodup (now : String) (s : MemoryStore) (t : ExecutionTrace)
    (h : (s.learned_constraints.map (fun c => c.pattern_key)).Nodup) :
    ((saveTrace now s t).learned_constraints.map (fun c => c.pattern_key)).Nodup := by
  unfold saveTrace
  exact learnFromPatterns_keys_nodup now _ h

/-! # Lemmas: list windows for the statistics claim -/

/-- Taking the last `k` elements through `reverse.take` is dropping all but
the last `k`. -/
theorem take_reverse_of_le {α : Type} (l : List α) (k : Nat) (h : k ≤ l.length) :
    l.reverse.take k = (l.drop (l.length - k)).reverse := by
  conv_lhs => rw [← List.take_append_drop (l.length - k) l, List.reverse_append]
  exact List.take_left' (by rw [List.length_reverse, List.length_drop]; omega)

/-- Dropping the last `k` elements through `reverse.drop`. -/
theorem drop_reverse_of_le {α : Type} (l : List α) (k : Nat) (h : k ≤ l.length) :
    l.reverse.drop k = (l.take (l.length - k)).reverse := by
  conv_lhs => rw [← List.take_append_drop (l.length - k) l, List.reverse_append]
  exact List.drop_left' (by rw [List.length_reverse, List.length_drop]; omega)

/-- With at least 10 runs, the code's `history[-5:]` window carries the same
mistake total as the spec's "most recent 5 runs". -/
theorem recent_window_sum (s : MemoryStore) (h : 10 ≤ s.execution_history.length) :
    ((s.execution_history.drop (s.execution_history.length - 5)).map
        (fun t => t.mistakes.length)).sum = recentFiveMistakes s := by
  unfold recentFiveMistakes
  rw [take_reverse_of_le _ 5 (by omega), List.map_reverse, List.sum_reverse]

/-- With at least 10 runs, the code's `history[-10:-5]` window carries the
same mistake total as the spec's "preceding 5 runs". -/
theorem preceding_window_sum (s : MemoryStore) (h : 10 ≤ s.execution_history.length) :
    (((s.execution_history.drop (s.execution_history.length - 10)).take 5).map
        (fun t => t.mistakes.length)).sum = precedingFiveMistakes s := by
  unfold precedingFiveMistakes
  rw [drop_reverse_of_le _ 5 (by omega)]
  have hlen : (s.execution_history.take (s.execution_history.length - 5)).length
      = s.execution_history.length - 5 := by
    rw [List.length_take]; omega
  rw [take_reverse_of_le _ 5 (by omega), hlen, List.map_reverse, List.sum_reverse]
  have h55 : s.execution_history.length - 5 - 5 = s.execution_history.length - 10 := by
    omega
  rw [h55, List.drop_take]
  have h510 : s.execution_history.length - 5 - (s.execution_history.length - 10) = 5 := by
    omega
  rw [h510]

/-! # Claim theorems -/

/-- C1: for every trace and raw message log, after `evaluate` returns,
`success` is true if and only if the trace's mistake list is empty. -/
theorem evaluate_success_iff_no_mistakes (now : String) (trace : ExecutionTrace)
    (messages : List Message) :
    (evaluate now trace messages).success = true
      ↔ (evaluate now trace messages).mistakes = [] := by
  simp only [evaluate]
  exact List.isEmpty_iff

/-- C2: across any sequence of `save_trace` calls starting from a fresh
store, the stored constraint keys stay pairwise distinct (at most one
constraint is ever created per pattern key); every save only appends to the
constraint list, so an entry — its `occurrences` value included — is frozen
at creation; and in the concrete two-trace scenario that pushes the
missing-weather pattern count to 2 and then to 5, exactly one constraint
exists afterwards and its `occurrences` field is 2, not 5. -/
theorem constraint_first_trigger_wins :
    (∀ (saves : List (String × ExecutionTrace)),
      ((saves.foldl (fun st p => saveTrace p.1 st p.2) initialStore).learned_constraints.map
          (fun c => c.pattern_key)).Nodup)
    ∧ (∀ (now : String) (s : MemoryStore) (t : ExecutionTrace),
        s.learned_constraints <+: (saveTrace now s t).learned_constraints)
    ∧ (saveTrace "T2" (saveTrace "T1" initialStore traceTwoOccurrences)
        traceThreeOccurrences).learned_constraints = [weatherConstraintEntry] := by
  refine ⟨?_, ?_, ?_⟩
  · have key : ∀ (ps : List (String × ExecutionTrace)) (s : MemoryStore),
        (s.learned_constraints.map (fun c => c.pattern_key)).Nodup →
        ((ps.foldl (fun st p => saveTrace p.1 st p.2) s).learned_constraints.map
            (fun c => c.pattern_key)).Nodup := by
      intro ps
      induction ps with
      | nil => intro s hs; exact hs
      | cons p rest ih =>
        intro s hs
        rw [List.foldl_cons]
        exact ih _ (saveTrace_keys_nodup p.1 s p.2 hs)
    intro saves
    exact key saves initialStore (by simp [initialStore])
  · exact fun now s t => saveTrace_constraints_grow now s t
  · decide

/-- C3 counterexample: evaluating an already-evaluated trace a second time
over the identical raw log (same timestamp supplied both times) does not
reproduce its mistakes byte for byte — re-extraction appends duplicate tool
calls, which flips the itinerary-last sub-check: neither the whole mistake
list nor the batch the second call appends equals the first call's list. -/
theorem reevaluation_changes_mistakes :
    (evaluate "T1" (evaluate "T1" freshTrace msgsTwoCalls) msgsTwoCalls).mistakes
        ≠ (evaluate "T1" freshTrace msgsTwoCalls).mistakes
    ∧ ((evaluate "T1" (evaluate "T1" freshTrace msgsTwoCalls) msgsTwoCalls).mistakes.drop
          (evaluate "T1" freshTrace msgsTwoCalls).mistakes.length)
        ≠ (evaluate "T1" freshTrace msgsTwoCalls).mistakes := by
  decide

/-- C3 (amended): evaluating the identical raw log from the same
*pre-evaluation* trace state (equal tool calls, final answer and mistakes —
run metadata free) reproduces byte-identical mistakes; the original claim
fails only because re-evaluating the mutated trace starts from a different
state. -/
theorem evaluate_reproduces_mistakes_from_equal_state (now : String)
    (messages : List Message) (t t' : ExecutionTrace)
    (h1 : t.tool_calls = t'.tool_calls) (h2 : t.final_answer = t'.final_answer)
    (h3 : t.mistakes = t'.mistakes) :
    (evaluate now t messages).mistakes = (evaluate now t' messages).mistakes := by
  rw [evaluate_mistakes, evaluate_mistakes, h1, h2, h3]

/-- Witness for the amended C3 theorem at concrete inputs: two fresh traces
differing only in run metadata. -/
theorem evaluate_reproduces_mistakes_witness :
    freshTrace.tool_calls = freshTraceAlt.tool_calls
    ∧ freshTrace.final_answer = freshTraceAlt.final_answer
    ∧ freshTrace.mistakes = freshTraceAlt.mistakes
    ∧ (evaluate "T1" freshTrace msgsTwoCalls).mistakes
        = (evaluate "T1" freshTraceAlt msgsTwoCalls).mistakes :=
  ⟨rfl, rfl, rfl,
    evaluate_reproduces_mistakes_from_equal_state "T1" msgsTwoCalls freshTrace
      freshTraceAlt rfl rfl rfl⟩

/-- C4 counterexample: in a log whose matching tool-result precedes the
assistant message (position 1) while another matching result follows it,
extraction records the *earlier* result's content, not the content of the
first matching tool-result occurring after the assistant message. -/
theorem extraction_uses_earlier_result :
    ((extractToolCalls msgsResultBefore freshTrace).tool_calls.map (fun c => c.output)
        = ["early"])
    ∧ specFirstOutputAfter msgsResultBefore 1 "x" = "late"
    ∧ ("early" : String) ≠ "late" := by
  decide

/-- C4 (amended): every extracted tool call's output is the content of the
first tool-result message *anywhere in the log* whose correlation id
matches the invocation's id — the empty string when no match exists — and
extraction never fails on malformed logs (it is a total function). -/
theorem extraction_output_first_match_anywhere (messages : List Message)
    (t : ExecutionTrace) :
    (extractToolCalls messages t).tool_calls.map (fun c => c.output)
      = t.tool_calls.map (fun c => c.output)
        ++ (allInvocations messages).map
            (fun tc => specFirstOutputAnywhere messages tc.id) := by
  rw [extractToolCalls_eq]
  show (extractCallsFrom messages t.tool_calls messages).map (fun c => c.output) = _
  rw [extractCallsFrom_outputs]
  have hfun : (fun tc : ToolInvocation => findOutput messages tc.id)
      = fun tc : ToolInvocation => specFirstOutputAnywhere messages tc.id :=
    funext (fun tc => findOutput_eq_spec messages tc.id)
  rw [hfun]

/-- C5: on the tool-call sequence
`[search_flights, check_weather, recommend_hotels, create_itinerary]` the
sequence check emits exactly one mistake: WrongSequence for the weather tool
not being first, at step 2 — the hotels-before-flights and
itinerary-not-last sub-checks stay silent. -/
theorem scenarioC_single_wrong_sequence :
    (checkToolSequence "T1" traceScenarioC).mistakes
      = [{ type := MistakeType.WRONG_SEQUENCE,
           description := "Weather should be checked before other tools",
           step := some 2, timestamp := "T1" }] := by
  decide

/-- C6: saving any store state to the durable document and loading it into
a fresh store reproduces `get_active_constraints` identically in content
and order. -/
theorem constraints_roundtrip (s : MemoryStore) :
    getActiveConstraints (loadStore (saveDoc s)) = getActiveConstraints s := rfl

/-- C7: `get_statistics` reports the improvement ratio as zero whenever
fewer than 10 runs exist, and otherwise as
`(preceding5 - recent5) / max(preceding5, 1) * 100` over the mistake totals
of the most recent 5 runs and the preceding 5; the divisor is
`max(preceding5, 1)`, hence 1 rather than 0 when the preceding 5 runs had
no mistakes. -/
theorem improvement_rate_formula (s : MemoryStore) :
    (getStatistics s).improvement_rate =
      if s.execution_history.length < 10 then 0
      else ((precedingFiveMistakes s : Rat) - (recentFiveMistakes s : Rat))
        / ((max (precedingFiveMistakes s) 1 : Nat) : Rat) * 100 := by
  by_cases h : 10 ≤ s.execution_history.length
  · rw [if_neg (by omega)]
    simp only [getStatistics]
    rw [if_pos h, recent_window_sum s h, preceding_window_sum s h]
  · rw [if_pos (by omega)]
    simp only [getStatistics]
    rw [if_neg h]

/-- C8: over any sequence of store operations, `run_counter` ends at its
initial value plus the number of `create_trace` calls — saves contribute
nothing — and each `create_trace` call increments it immediately. -/
theorem run_counter_monotonic :
    (∀ (ops : List MemOp) (s : MemoryStore),
        (ops.foldl applyOp s).run_counter
          = s.run_counter + (ops.filter isCreateOp).length)
    ∧ ∀ (s : MemoryStore) (task now : String),
        (createTrace s task now).2.run_counter = s.run_counter + 1 := by
  constructor
  · intro ops
    induction ops with
    | nil => intro s; simp
    | cons op rest ih =>
      intro s
      rw [List.foldl_cons]
      cases op with
      | create task now =>
        rw [ih]
        simp [applyOp, createTrace, isCreateOp, List.filter_cons]
        omega
      | save now trace =>
        rw [ih]
        simp [applyOp, saveTrace_run_counter, isCreateOp, List.filter_cons]
  · intro s task now
    rfl

/-- C9: a trace returned by `create_trace` has empty tool calls, empty
mistakes, an empty final answer, and `success = false` — so before passing
through `evaluate`, a trace has `success = false` despite an empty mistake
list. -/
theorem created_trace_empty_and_unsuccessful (s : MemoryStore) (task now : String) :
    (createTrace s task now).1.tool_calls = []
    ∧ (createTrace s task now).1.mistakes = []
    ∧ (createTrace s task now).1.final_answer = ""
    ∧ (createTrace s task now).1.success = false :=
  ⟨rfl, rfl, rfl, rfl⟩

/-- C10: `evaluate` only appends to the mistake list, and no appended
mistake ever has kind WrongTool — none of the four checks produces it. -/
theorem evaluate_never_adds_wrong_tool (now : String) (trace : ExecutionTrace)
    (messages : List Message) :
    ∃ appended, (evaluate now trace messages).mistakes = trace.mistakes ++ appended
      ∧ ∀ m ∈ appended, m.type ≠ MistakeType.WRONG_TOOL := by
  refine ⟨missingMistakes now (extractCallsFrom messages trace.tool_calls messages)
    ++ seqMistakes now
        ((extractCallsFrom messages trace.tool_calls messages).map (fun c => c.tool))
    ++ earlyMistakes now (extractFinalFrom trace.final_answer messages)
        (extractCallsFrom messages trace.tool_calls messages).length
    ++ outputMistakes now (extractFinalFrom trace.final_answer messages)
        (extractCallsFrom messages trace.tool_calls messages).length, ?_, ?_⟩
  · rw [evaluate_mistakes]
    simp [List.append_assoc]
  · intro m hm
    simp only [List.mem_append] at hm
    rcases hm with ((hm | hm) | hm) | hm
    · rw [missingMistakes_type now _ m hm]; decide
    · rw [seqMistakes_type now _ m hm]; decide
    · rw [earlyMistakes_type now _ _ m hm]; decide
    · rw [outputMistakes_type now _ _ m hm]; decide
